import Mathlib

/-!
Verification of the temp-file library core against its specification.

The crate root (`src/lib.rs`) provides the `Builder` configuration type and
its creation entry points; the submodules (`util`, `file`, `spooled`) hold
the retry loop, the owned-path lifecycle and the spooled buffer, and are
modelled here from the specification where noted.  Paths are embedded as
`List Char`, bytes as `Nat`, machine randomness as an explicit stream
`Nat → Nat`, and fallible operations return `Except`.
-/

/-- Fixed attempt ceiling of the creation engine (`NUM_RETRIES` in `lib.rs`). -/
def NUM_RETRIES : Nat := 65536

/-- Default number of random name characters (`NUM_RAND_CHARS` in `lib.rs`). -/
def NUM_RAND_CHARS : Nat := 6

/-- Subset of `std::io::ErrorKind` values relevant to the creation engine. -/
inductive ErrorKind where
  | alreadyExists
  | addrInUse
  | permissionDenied
  | notFound
  | other (code : Nat)
deriving DecidableEq, Repr

/-- Result classification of a whole creation-engine run: either the fixed
attempt ceiling was exhausted, or a fatal I/O error was propagated. -/
inductive CreateError where
  | exhausted
  | fatal (e : ErrorKind)
deriving DecidableEq, Repr

/-- Modelled from the spec: the "name already in use" class of errors on
which the creation engine retries (file-exists, address-in-use); the
`Builder::make` documentation in `lib.rs` lists exactly
`AlreadyExists` and `AddrInUse`. -/
def retryable (e : ErrorKind) : Bool :=
  match e with
  | .alreadyExists => true
  | .addrInUse => true
  | _ => false

/-- Platform permission descriptor (`std::fs::Permissions`), reduced to its
mode bits for the embedding. -/
structure Permissions where
  mode : Nat
deriving DecidableEq, Repr

/-- The `Builder` configuration struct from `lib.rs`.  The field `pre`
embeds the source field named like the name-front setter (that exact
identifier is reserved in this development), `suffix` the name-tail. -/
structure Builder where
  random_len : Nat
  pre : List Char
  suffix : List Char
  append : Bool
  permissions : Option Permissions
  disable_cleanup : Bool
deriving DecidableEq, Repr

/-- `impl Default for Builder` from `lib.rs`. -/
def Builder.default : Builder :=
  { random_len := NUM_RAND_CHARS
  , pre := ".tmp".toList
  , suffix := "".toList
  , append := false
  , permissions := none
  , disable_cleanup := false }

/-- `Builder::new`, which returns `Self::default()`. -/
def Builder.new : Builder := Builder.default

/-- `Builder::disable_cleanup` setter (named apart from the field accessor). -/
def Builder.withDisableCleanup (b : Builder) (v : Bool) : Builder :=
  { b with disable_cleanup := v }

/-- `Builder::keep`, the deprecated alias whose body is
`self.disable_cleanup(keep)`. -/
def Builder.keep (b : Builder) (k : Bool) : Builder :=
  Builder.withDisableCleanup b k

/-- Modelled from the spec: the fixed 62-value alphanumeric alphabet from
which random name characters are drawn (`util::tmpname` is not in `src/`). -/
def alphabet : List Char :=
  "ABCDEFGHIJKLMNOPQRSTUVWXYZabcdefghijklmnopqrstuvwxyz0123456789".toList

/-- Modelled from the spec: `n` random characters, each drawn from the
62-value alphabet by the random stream `rng`. -/
def randomChars (n : Nat) (rng : Nat → Nat) : List Char :=
  (List.range n).map (fun j => alphabet.getD (rng j % alphabet.length) 'A')

/-- Modelled from the spec: `util::tmpname` — candidate name = name-front
++ random characters ++ name-tail. -/
def tmpname (pre suf : List Char) (n : Nat) (rng : Nat → Nat) : List Char :=
  pre ++ randomChars n rng ++ suf

/-- Joining a candidate name with the target directory to form a full path. -/
def joinPath (dir name : List Char) : List Char :=
  dir ++ '/' :: name

/-- The full candidate path tried at attempt number `i`: attempt `i`
consumes the slice of the random stream starting at `i * n`, so each retry
uses a fresh candidate name. -/
def attemptPath (dir pre suf : List Char) (n : Nat) (rng : Nat → Nat) (i : Nat) : List Char :=
  joinPath dir (tmpname pre suf n (fun j => rng (i * n + j)))

/-- Modelled from the spec: the retry loop of `util::create_helper` (not in
`src/`).  `fuel` counts remaining attempts, `i` is the current attempt
number; a successful attempt returns, a retryable failure moves to a fresh
candidate, any other failure is fatal, and running out of fuel is the
exhausted-retries condition. -/
def create_helper_loop {R : Type} (dir pre suf : List Char) (n : Nat) (rng : Nat → Nat)
    (f : List Char → Except ErrorKind R) : Nat → Nat → Except CreateError R
  | 0, _ => .error .exhausted
  | fuel + 1, i =>
    match f (attemptPath dir pre suf n rng i) with
    | .ok r => .ok r
    | .error e =>
      if retryable e then create_helper_loop dir pre suf n rng f fuel (i + 1)
      else .error (.fatal e)

/-- Modelled from the spec: `util::create_helper`, the creation engine —
bounded at `NUM_RETRIES` total attempts starting from attempt `0`. -/
def create_helper {R : Type} (dir pre suf : List Char) (n : Nat) (rng : Nat → Nat)
    (f : List Char → Except ErrorKind R) : Except CreateError R :=
  create_helper_loop dir pre suf n rng f NUM_RETRIES 0

/-- An owned temporary path: the path plus its cleanup-disabled flag
(`TempPath` in `file.rs`, modelled from the spec at its boundary). -/
structure TempPath where
  path : List Char
  disable_cleanup : Bool
deriving DecidableEq, Repr

/-- `TempPath::new(path, disable_cleanup)` as used by `Builder::make_in`. -/
def TempPath.new (p : List Char) (dc : Bool) : TempPath := ⟨p, dc⟩

/-- A named temporary resource: an open handle of type `R` plus the owned
path (`NamedTempFile<F>` in `file.rs`, modelled at its boundary). -/
structure NamedTempFileM (R : Type) where
  file : R
  path : TempPath

/-- `NamedTempFile::from_parts(file, path)`. -/
def NamedTempFileM.from_parts {R : Type} (file : R) (path : TempPath) : NamedTempFileM R :=
  ⟨file, path⟩

/-- `Builder::make_in` from `lib.rs`: runs the creation engine over the
given directory with this builder's name-front, name-tail and random
length, wrapping each successful closure result with the candidate path
and this builder's cleanup flag.  The closure's failures propagate to the
engine for classification. -/
def Builder.make_in {R : Type} (b : Builder) (dir : List Char) (rng : Nat → Nat)
    (f : List Char → Except ErrorKind R) : Except CreateError (NamedTempFileM R) :=
  create_helper dir b.pre b.suffix b.random_len rng
    (fun path =>
      match f path with
      | .ok r => .ok (NamedTempFileM.from_parts r (TempPath.new path b.disable_cleanup))
      | .error e => .error e)

/-- Modelled from the spec: the content view of the promoted owned file
backing a spooled buffer — its byte content and its cursor position. -/
structure FileBacking where
  data : List Nat
  pos : Nat
deriving DecidableEq, Repr

/-- Modelled from the spec: the tagged backing variant of the spooled
buffer (`SpooledData` in `spooled.rs`, not in `src/`) — either an
in-memory growable byte sequence with a cursor, or a promoted file. -/
inductive SpooledData where
  | inMemory (buf : List Nat) (pos : Nat)
  | onDisk (file : FileBacking)
deriving DecidableEq, Repr

/-- Modelled from the spec: `SpooledTempFile` — the configured size
threshold together with the active backing variant. -/
structure SpooledTempFile where
  max_size : Nat
  inner : SpooledData
deriving DecidableEq, Repr

/-- `spooled_tempfile(max_size)`: starts in-memory, empty, cursor `0`. -/
def spooled_tempfile (max_size : Nat) : SpooledTempFile :=
  ⟨max_size, .inMemory [] 0⟩

/-- Whether the buffer is currently memory-backed. -/
def is_memory (s : SpooledTempFile) : Bool :=
  match s.inner with
  | .inMemory _ _ => true
  | .onDisk _ => false

/-- Whether the buffer has been promoted to its disk backing
(`SpooledTempFile::is_rolled`). -/
def is_rolled (s : SpooledTempFile) : Bool :=
  match s.inner with
  | .inMemory _ _ => false
  | .onDisk _ => true

/-- Byte content of the active backing. -/
def dataOf (s : SpooledTempFile) : List Nat :=
  match s.inner with
  | .inMemory b _ => b
  | .onDisk fl => fl.data

/-- Cursor position of the active backing. -/
def posOf (s : SpooledTempFile) : Nat :=
  match s.inner with
  | .inMemory _ p => p
  | .onDisk fl => fl.pos

/-- Modelled from the spec: explicit roll-over (`SpooledTempFile::roll`) —
promote by copying all buffered bytes into the file backing preserving
byte order and the current cursor position; a no-op when already
disk-backed. -/
def SpooledTempFile.roll (s : SpooledTempFile) : SpooledTempFile :=
  match s with
  | ⟨m, .inMemory b p⟩ => ⟨m, .onDisk ⟨b, p⟩⟩
  | ⟨_, .onDisk _⟩ => s

/-- Overwrite `bs` into `data` at position `pos`, zero-filling any gap when
the cursor sits past the end, as a generic random-access byte store does. -/
def writeAt (data : List Nat) (pos : Nat) (bs : List Nat) : List Nat :=
  let padded := data ++ List.replicate (pos - data.length) 0
  padded.take pos ++ bs ++ padded.drop (pos + bs.length)

/-- Modelled from the spec: writing to the spooled buffer.  While
in-memory, if the projected size after the write (the larger of the
current length and cursor-plus-write-length) would exceed the threshold,
the buffer first promotes — copying bytes and cursor into the file
backing — and the write then lands in the file; otherwise the write lands
in the active backing and the cursor advances past the written bytes. -/
def SpooledTempFile.write (s : SpooledTempFile) (bs : List Nat) : SpooledTempFile :=
  match s with
  | ⟨m, .inMemory b p⟩ =>
    if max b.length (p + bs.length) > m then
      ⟨m, .onDisk ⟨writeAt b p bs, p + bs.length⟩⟩
    else
      ⟨m, .inMemory (writeAt b p bs) (p + bs.length)⟩
  | ⟨m, .onDisk fl⟩ => ⟨m, .onDisk ⟨writeAt fl.data fl.pos bs, fl.pos + bs.length⟩⟩

/-- Seek to an absolute position in the active backing. -/
def seekTo (s : SpooledTempFile) (p : Nat) : SpooledTempFile :=
  match s with
  | ⟨m, .inMemory b _⟩ => ⟨m, .inMemory b p⟩
  | ⟨m, .onDisk fl⟩ => ⟨m, .onDisk ⟨fl.data, p⟩⟩

/-- Read up to `n` bytes from the cursor of the active backing, returning
the bytes and the buffer with the cursor advanced past them. -/
def readN (s : SpooledTempFile) (n : Nat) : List Nat × SpooledTempFile :=
  match s with
  | ⟨m, .inMemory b p⟩ =>
    (((b.drop p).take n), ⟨m, .inMemory b (p + ((b.drop p).take n).length)⟩)
  | ⟨m, .onDisk fl⟩ =>
    (((fl.data.drop fl.pos).take n),
      ⟨m, .onDisk ⟨fl.data, fl.pos + ((fl.data.drop fl.pos).take n).length⟩⟩)

/-- Read every byte from the cursor to the end of the active backing. -/
def read_to_end (s : SpooledTempFile) : List Nat × SpooledTempFile :=
  match s with
  | ⟨m, .inMemory b p⟩ => (b.drop p, ⟨m, .inMemory b b.length⟩)
  | ⟨m, .onDisk fl⟩ => (fl.data.drop fl.pos, ⟨m, .onDisk ⟨fl.data, fl.data.length⟩⟩)

/-- A client-visible operation on the spooled buffer. -/
inductive SpooledOp where
  | write (bs : List Nat)
  | seekTo (p : Nat)
  | readN (n : Nat)
  | readEnd
  | roll
deriving DecidableEq, Repr

/-- State effect of one spooled-buffer operation (read results dropped). -/
def applyOp (s : SpooledTempFile) : SpooledOp → SpooledTempFile
  | .write bs => s.write bs
  | .seekTo p => seekTo s p
  | .readN n => (readN s n).2
  | .readEnd => (read_to_end s).2
  | .roll => s.roll

/-- Run a sequence of spooled-buffer operations. -/
def runOps (s : SpooledTempFile) (ops : List SpooledOp) : SpooledTempFile :=
  ops.foldl applyOp s

/-- Run a sequence of writes. -/
def writeSeq (s : SpooledTempFile) (ws : List (List Nat)) : SpooledTempFile :=
  ws.foldl SpooledTempFile.write s

/-- Abstract filesystem state: the list of existing paths. -/
abbrev FsState := List (List Char)

/-- Rename `src` to `dst` in the abstract filesystem. -/
def renameFs (fs : FsState) (src dst : List Char) : FsState :=
  dst :: fs.filter (fun q => q != src)

/-- Modelled from the spec: the finalizer of an owned path — deletes the
path unless cleanup has been disabled, in which case it is a no-op. -/
def finalize (p : TempPath) (fs : FsState) : FsState :=
  if p.disable_cleanup then fs else fs.filter (fun q => q != p.path)

/-- Modelled from the spec: the disable-cleanup operation on an owned
path (`TempPath::disable_cleanup(bool)`) — sets the cleanup-disabled
flag to the given value. -/
def TempPath.disableCleanup (p : TempPath) (v : Bool) : TempPath :=
  { p with disable_cleanup := v }

/-- Outcome of the platform rename primitive backing a persist call,
injected as a capability. -/
inductive RenameOutcome where
  | success
  | failure (e : ErrorKind)
deriving DecidableEq, Repr

/-- Modelled from the spec: `TempPath::persist` — on rename success the
path leaves the temp namespace (the new path carries no cleanup
obligation); on failure the filesystem is untouched and the error is
returned together with the still-owned path. -/
def TempPath.persistOp (p : TempPath) (dest : List Char) (out : RenameOutcome)
    (fs : FsState) : FsState × Except (ErrorKind × TempPath) (List Char) :=
  match out with
  | .success => (renameFs fs p.path dest, .ok dest)
  | .failure e => (fs, .error (e, p))

/-- The composite error of a failed persist: the original error together
with the original, still-owned resource (`PersistError<F>`). -/
structure PersistError (R : Type) where
  error : ErrorKind
  file : NamedTempFileM R

/-- Modelled from the spec: `NamedTempFile::persist` — destructures the
resource, persists the path, and on failure reassembles the original
resource into the composite error; on success returns the still-open
handle, the finalizer having been disarmed with the surrendered path. -/
def NamedTempFileM.persist {R : Type} (nt : NamedTempFileM R) (dest : List Char)
    (out : RenameOutcome) (fs : FsState) : FsState × Except (PersistError R) R :=
  match TempPath.persistOp nt.path dest out fs with
  | (fs', .ok _) => (fs', .ok nt.file)
  | (fs', .error (e, p')) => (fs', .error ⟨e, ⟨nt.file, p'⟩⟩)

/-- The cleanup obligations still armed in a persist result: a successful
persist leaves none; a failed persist leaves the original path armed
unless its cleanup was disabled. -/
def pendingCleanup {R : Type} : Except (PersistError R) R → List (List Char)
  | .ok _ => []
  | .error pe => if pe.file.path.disable_cleanup then [] else [pe.file.path.path]

theorem getD_mem_of_lt {α : Type} (l : List α) (i : Nat) (d : α) (h : i < l.length) :
    l.getD i d ∈ l := by
  induction l generalizing i with
  | nil => simp at h
  | cons a l ih =>
    cases i with
    | zero => simp [List.getD]
    | succ i =>
      have : (a :: l).getD (i + 1) d = l.getD i d := by simp [List.getD]
      rw [this]
      exact List.mem_cons_of_mem a (ih i (by simpa using h))

theorem create_helper_loop_exhausts {R : Type} (dir pre suf : List Char) (n : Nat)
    (rng : Nat → Nat) (f : List Char → Except ErrorKind R)
    (h : ∀ p, f p = .error .alreadyExists) :
    ∀ (fuel i : Nat), create_helper_loop dir pre suf n rng f fuel i = .error .exhausted := by
  intro fuel
  induction fuel with
  | zero => intro i; rfl
  | succ fuel ih =>
    intro i
    simp only [create_helper_loop, h, retryable, if_true]
    exact ih (i + 1)

/-- Claim C1: if the caller-supplied attempt operation fails with an
"already exists" error on every invocation, the creation engine
terminates and fails with the distinct exhausted-retries condition, the
fixed attempt ceiling being 65536. -/
theorem create_exhausts_on_always_exists {R : Type} (dir pre suf : List Char) (n : Nat)
    (rng : Nat → Nat) (f : List Char → Except ErrorKind R)
    (h : ∀ p, f p = .error .alreadyExists) :
    create_helper dir pre suf n rng f = .error .exhausted ∧ NUM_RETRIES = 65536 :=
  ⟨create_helper_loop_exhausts dir pre suf n rng f h NUM_RETRIES 0, rfl⟩

/-- Witness for C1 at a concrete configuration and attempt operation. -/
theorem create_exhausts_on_always_exists_witness :
    create_helper [] [] [] 0 (fun k => k)
        (fun _ => (.error .alreadyExists : Except ErrorKind Unit)) = .error .exhausted
      ∧ NUM_RETRIES = 65536 :=
  create_exhausts_on_always_exists [] [] [] 0 (fun k => k)
    (fun _ => .error .alreadyExists) (fun _ => rfl)

theorem create_helper_loop_skip {R : Type} (dir pre suf : List Char) (n : Nat)
    (rng : Nat → Nat) (f : List Char → Except ErrorKind R) :
    ∀ (k fuel i : Nat),
      (∀ j, j < k →
        ∃ e, f (attemptPath dir pre suf n rng (i + j)) = .error e ∧ retryable e = true) →
      k < fuel →
      create_helper_loop dir pre suf n rng f fuel i
        = create_helper_loop dir pre suf n rng f (fuel - k) (i + k) := by
  intro k
  induction k with
  | zero => intro fuel i _ _; simp
  | succ k ih =>
    intro fuel i h hk
    obtain ⟨fuel', rfl⟩ : ∃ m, fuel = m + 1 := ⟨fuel - 1, by omega⟩
    obtain ⟨e, he, hr⟩ := h 0 (Nat.succ_pos k)
    simp only [Nat.add_zero] at he
    have step : create_helper_loop dir pre suf n rng f (fuel' + 1) i
        = create_helper_loop dir pre suf n rng f fuel' (i + 1) := by
      simp only [create_helper_loop, he, hr, if_true]
    rw [step]
    have h' : ∀ j, j < k →
        ∃ e, f (attemptPath dir pre suf n rng (i + 1 + j)) = .error e ∧ retryable e = true := by
      intro j hj
      have hrw : i + 1 + j = i + (j + 1) := by omega
      rw [hrw]
      exact h (j + 1) (by omega)
    have := ih fuel' (i + 1) h' (by omega)
    rw [this]
    have e1 : fuel' + 1 - (k + 1) = fuel' - k := by omega
    have e2 : i + 1 + k = i + (k + 1) := by omega
    rw [e1, e2]

/-- Claim C2: the creation engine retries with a fresh candidate exactly
when the attempt fails with a name-already-in-use class error
(file-exists or address-in-use); on a success or any other failure at
attempt `i` the run ends there with that outcome. -/
theorem retry_exactly_on_collision {R : Type} (dir pre suf : List Char) (n : Nat)
    (rng : Nat → Nat) (f : List Char → Except ErrorKind R) (i : Nat)
    (hlt : i < NUM_RETRIES)
    (hpre : ∀ j, j < i →
      ∃ e, f (attemptPath dir pre suf n rng j) = .error e ∧ retryable e = true) :
    (∀ r, f (attemptPath dir pre suf n rng i) = .ok r →
        create_helper dir pre suf n rng f = .ok r) ∧
    (∀ e, f (attemptPath dir pre suf n rng i) = .error e → retryable e = false →
        create_helper dir pre suf n rng f = .error (.fatal e)) := by
  have hskip := create_helper_loop_skip dir pre suf n rng f i NUM_RETRIES 0
    (by intro j hj; simpa using hpre j hj) hlt
  simp only [Nat.zero_add] at hskip
  obtain ⟨m, hm⟩ : ∃ m, NUM_RETRIES - i = m + 1 := ⟨NUM_RETRIES - i - 1, by omega⟩
  constructor
  · intro r hf
    unfold create_helper
    rw [hskip, hm]
    simp only [create_helper_loop, hf]
  · intro e hf hr
    unfold create_helper
    rw [hskip, hm]
    simp only [create_helper_loop, hf, hr, if_false, Bool.false_eq_true, if_neg]

/-- Witness for C2 at attempt `0` with a non-retryable (not-found) failure:
the engine propagates it immediately as the fatal outcome. -/
theorem retry_exactly_on_collision_witness :
    create_helper [] [] [] 0 (fun k => k)
        (fun _ => (.error .notFound : Except ErrorKind Unit)) = .error (.fatal .notFound) :=
  (retry_exactly_on_collision [] [] [] 0 (fun k => k) (fun _ => .error .notFound) 0
      (by decide) (fun j hj => absurd hj (Nat.not_lt_zero j))).2 .notFound rfl rfl

/-- Claim C5: with the default configuration the candidate name is the
name-front `.tmp`, then exactly 6 random characters each drawn from the
fixed 62-value alphanumeric alphabet, then the (empty) name-tail. -/
theorem default_candidate_shape (rng : Nat → Nat) :
    ∃ mid : List Char,
      tmpname Builder.default.pre Builder.default.suffix Builder.default.random_len rng
          = Builder.default.pre ++ mid ++ Builder.default.suffix
        ∧ mid.length = 6
        ∧ Builder.default.random_len = 6
        ∧ Builder.default.pre = ".tmp".toList
        ∧ Builder.default.suffix = []
        ∧ (∀ c ∈ mid, c ∈ alphabet)
        ∧ alphabet.length = 62
        ∧ alphabet.Nodup := by
  refine ⟨randomChars Builder.default.random_len rng, rfl, ?_, rfl, rfl, rfl, ?_,
    by decide, by decide⟩
  · simp [randomChars, Builder.default, NUM_RAND_CHARS]
  · intro c hc
    simp only [randomChars, List.mem_map, List.mem_range] at hc
    obtain ⟨j, _, rfl⟩ := hc
    exact getD_mem_of_lt alphabet _ 'A' (Nat.mod_lt _ (by decide))

/-- Claim C8: `Builder::make_in` does not read the builder's append flag;
two runs differing only in that flag produce the same outcome. -/
theorem make_in_ignores_append {R : Type} (b : Builder) (a : Bool) (dir : List Char)
    (rng : Nat → Nat) (f : List Char → Except ErrorKind R) :
    Builder.make_in { b with append := a } dir rng f = Builder.make_in b dir rng f := rfl

/-- Claim C9: `Builder::keep` is a pure alias of the `disable_cleanup`
setter: applied to any builder and flag it yields the same builder state. -/
theorem keep_alias_disable_cleanup (b : Builder) (k : Bool) :
    Builder.keep b k = Builder.withDisableCleanup b k := rfl

/-- Claim C10: `Builder::new` returns the default configuration —
random length 6, name-front `.tmp`, empty name-tail, append off, no
explicit permissions, cleanup enabled. -/
theorem new_is_default_configuration :
    Builder.new = Builder.default
      ∧ Builder.new.random_len = 6
      ∧ Builder.new.pre = ".tmp".toList
      ∧ Builder.new.suffix = []
      ∧ Builder.new.append = false
      ∧ Builder.new.permissions = none
      ∧ Builder.new.disable_cleanup = false :=
  ⟨rfl, rfl, rfl, rfl, rfl, rfl, rfl⟩

theorem writeAt_append (d bs : List Nat) : writeAt d d.length bs = d ++ bs := by
  unfold writeAt
  simp only [Nat.sub_self, List.replicate_zero, List.append_nil]
  rw [List.take_length, List.drop_eq_nil_of_le (by omega), List.append_nil]

theorem write_memory_append (T : Nat) (b bs : List Nat) :
    SpooledTempFile.write ⟨T, .inMemory b b.length⟩ bs
      = if (b ++ bs).length ≤ T
          then (⟨T, .inMemory (b ++ bs) (b ++ bs).length⟩ : SpooledTempFile)
          else ⟨T, .onDisk ⟨b ++ bs, (b ++ bs).length⟩⟩ := by
  have hmax : max b.length (b.length + bs.length) = b.length + bs.length :=
    Nat.max_eq_right (Nat.le_add_right _ _)
  simp only [SpooledTempFile.write, hmax, writeAt_append, List.length_append]
  by_cases h : b.length + bs.length > T
  · rw [if_pos h, if_neg (by omega)]
  · rw [if_neg h, if_pos (by omega)]

theorem writeSeq_onDisk (T : Nat) (ws : List (List Nat)) :
    ∀ d : List Nat,
      writeSeq ⟨T, .onDisk ⟨d, d.length⟩⟩ ws
        = ⟨T, .onDisk ⟨d ++ ws.flatten, (d ++ ws.flatten).length⟩⟩ := by
  induction ws with
  | nil => intro d; simp [writeSeq]
  | cons bs ws ih =>
    intro d
    have hw : SpooledTempFile.write ⟨T, .onDisk ⟨d, d.length⟩⟩ bs
        = ⟨T, .onDisk ⟨d ++ bs, (d ++ bs).length⟩⟩ := by
      simp only [SpooledTempFile.write, writeAt_append, List.length_append]
    simp only [writeSeq, List.foldl_cons] at ih ⊢
    rw [hw, ih (d ++ bs)]
    simp [List.append_assoc]

theorem writeSeq_inMemory (T : Nat) (ws : List (List Nat)) :
    ∀ b : List Nat, b.length ≤ T →
      writeSeq ⟨T, .inMemory b b.length⟩ ws
        = if (b ++ ws.flatten).length ≤ T
            then (⟨T, .inMemory (b ++ ws.flatten) (b ++ ws.flatten).length⟩ : SpooledTempFile)
            else ⟨T, .onDisk ⟨b ++ ws.flatten, (b ++ ws.flatten).length⟩⟩ := by
  induction ws with
  | nil => intro b hb; simp [writeSeq, hb]
  | cons bs ws ih =>
    intro b hb
    simp only [writeSeq, List.foldl_cons]
    rw [write_memory_append T b bs]
    by_cases h : (b ++ bs).length ≤ T
    · rw [if_pos h]
      have hrec := ih (b ++ bs) h
      simp only [writeSeq] at hrec
      rw [hrec]
      simp only [List.flatten_cons, List.append_assoc]
    · rw [if_neg h]
      have hdisk := writeSeq_onDisk T ws (b ++ bs)
      simp only [writeSeq] at hdisk
      rw [hdisk]
      have hgt : ¬ (b ++ (bs :: ws).flatten).length ≤ T := by
        simp only [List.flatten_cons, List.length_append] at h ⊢
        omega
      rw [if_neg hgt]
      simp only [List.flatten_cons, List.append_assoc]

/-- Counterexample to Claim C3 as stated: with threshold 2, writing exactly
1 byte (threshold minus one) leaves the buffer memory-backed, and writing
one further byte — reaching exactly the threshold — still leaves it
memory-backed instead of promoting it to its disk backing, because
promotion happens only when the projected size would strictly exceed the
threshold. -/
theorem spooled_threshold_counterexample :
    is_memory (writeSeq (spooled_tempfile 2) [[7]]) = true
      ∧ is_memory (writeSeq (spooled_tempfile 2) [[7], [8]]) = true := by decide

/-- Claim C3 (amended): for every threshold and every sequence of writes,
the buffer stays memory-backed exactly while the total bytes written do
not exceed the threshold (so writing threshold-minus-one bytes and even
the threshold-th byte leave it memory-backed, and the first byte beyond
the threshold promotes it); reading back from the start always yields
exactly the bytes written, in order, the cursor equals the total bytes
written, and promotion preserves content, cursor and threshold. -/
theorem spooled_threshold_roundtrip (T : Nat) (ws : List (List Nat)) :
    (read_to_end (seekTo (writeSeq (spooled_tempfile T) ws) 0)).1 = ws.flatten
      ∧ posOf (writeSeq (spooled_tempfile T) ws) = ws.flatten.length
      ∧ is_memory (writeSeq (spooled_tempfile T) ws) = decide (ws.flatten.length ≤ T)
      ∧ (∀ s : SpooledTempFile,
          dataOf s.roll = dataOf s ∧ posOf s.roll = posOf s
            ∧ s.roll.max_size = s.max_size) := by
  have h0 : writeSeq (spooled_tempfile T) ws
      = if ws.flatten.length ≤ T
          then (⟨T, .inMemory ws.flatten ws.flatten.length⟩ : SpooledTempFile)
          else ⟨T, .onDisk ⟨ws.flatten, ws.flatten.length⟩⟩ := by
    have := writeSeq_inMemory T ws [] (Nat.zero_le T)
    simpa [spooled_tempfile] using this
  refine ⟨?_, ?_, ?_, ?_⟩
  · rw [h0]
    by_cases h : ws.flatten.length ≤ T
    · rw [if_pos h]; simp [seekTo, read_to_end]
    · rw [if_neg h]; simp [seekTo, read_to_end]
  · rw [h0]
    by_cases h : ws.flatten.length ≤ T
    · rw [if_pos h]; rfl
    · rw [if_neg h]; rfl
  · rw [h0]
    by_cases h : ws.flatten.length ≤ T
    · rw [if_pos h]; exact (decide_eq_true h).symm
    · rw [if_neg h]; exact (decide_eq_false h).symm
  · intro s
    obtain ⟨m, inner⟩ := s
    cases inner <;> simp [SpooledTempFile.roll, dataOf, posOf]

theorem is_rolled_applyOp (s : SpooledTempFile) (op : SpooledOp)
    (h : is_rolled s = true) : is_rolled (applyOp s op) = true := by
  obtain ⟨m, inner⟩ := s
  cases inner with
  | inMemory b p => simp [is_rolled] at h
  | onDisk fl =>
    cases op <;>
      simp [applyOp, SpooledTempFile.write, seekTo, readN, read_to_end,
        SpooledTempFile.roll, is_rolled]

theorem is_rolled_runOps (ops : List SpooledOp) :
    ∀ s : SpooledTempFile, is_rolled s = true → is_rolled (runOps s ops) = true := by
  induction ops with
  | nil => intro s h; exact h
  | cons op ops ih =>
    intro s h
    simp only [runOps, List.foldl_cons] at ih ⊢
    exact ih (applyOp s op) (is_rolled_applyOp s op h)

/-- Claim C6: the spooled buffer has exactly one backing variant active at
a time, promotion is one-directional — once disk-backed it stays
disk-backed under every sequence of write/read/seek/roll operations — and
forcing roll-over when already disk-backed is a no-op. -/
theorem spooled_one_way (s : SpooledTempFile) (ops : List SpooledOp) :
    (is_rolled s = true → is_rolled (runOps s ops) = true)
      ∧ (is_rolled s = true → s.roll = s)
      ∧ is_memory s = !is_rolled s := by
  refine ⟨is_rolled_runOps ops s, ?_, ?_⟩
  · intro h
    obtain ⟨m, inner⟩ := s
    cases inner with
    | inMemory b p => simp [is_rolled] at h
    | onDisk fl => rfl
  · obtain ⟨m, inner⟩ := s
    cases inner <;> simp [is_memory, is_rolled]

/-- Witness for C6 at a concrete disk-backed buffer and operation list. -/
theorem spooled_one_way_witness :
    is_rolled (runOps ⟨5, .onDisk ⟨[1, 2], 2⟩⟩ [.write [3], .seekTo 0, .readN 1, .roll]) = true
      ∧ SpooledTempFile.roll ⟨5, .onDisk ⟨[1, 2], 2⟩⟩ = ⟨5, .onDisk ⟨[1, 2], 2⟩⟩ :=
  ⟨(spooled_one_way ⟨5, .onDisk ⟨[1, 2], 2⟩⟩
      [.write [3], .seekTo 0, .readN 1, .roll]).1 rfl,
   (spooled_one_way ⟨5, .onDisk ⟨[1, 2], 2⟩⟩ []).2.1 rfl⟩

/-- Claim C4: when a persist fails, the filesystem and ownership are
unchanged and the result carries both the original error and the original
still-owned resource, so no resource is lost; when it succeeds, the temp
path is renamed to the destination, the still-open handle is returned, and
no cleanup obligation remains armed (the finalizer is disarmed). -/
theorem persist_failure_retains_resource {R : Type} (nt : NamedTempFileM R)
    (dest : List Char) (fs : FsState) :
    (∀ e, NamedTempFileM.persist nt dest (.failure e) fs = (fs, .error ⟨e, nt⟩))
      ∧ NamedTempFileM.persist nt dest .success fs
          = (renameFs fs nt.path.path dest, .ok nt.file)
      ∧ pendingCleanup (NamedTempFileM.persist nt dest .success fs).2 = []
      ∧ (∀ e, pendingCleanup (NamedTempFileM.persist nt dest (.failure e) fs).2
          = (if nt.path.disable_cleanup then [] else [nt.path.path])) :=
  ⟨fun _ => rfl, rfl, rfl, fun _ => rfl⟩

/-- Claim C7: the disable-cleanup operation on an owned path is
idempotent — one application or several yield the same resource state —
and after disabling, the finalizer is a no-op on the filesystem. -/
theorem disable_cleanup_idempotent (p : TempPath) (v : Bool) (fs : FsState) :
    TempPath.disableCleanup (TempPath.disableCleanup p v) v = TempPath.disableCleanup p v
      ∧ finalize (TempPath.disableCleanup p true) fs = fs
      ∧ (∀ n : Nat,
          Nat.iterate (fun q => TempPath.disableCleanup q true) (n + 1) p
            = TempPath.disableCleanup p true) := by
  refine ⟨rfl, by simp [finalize, TempPath.disableCleanup], ?_⟩
  intro n
  induction n with
  | zero => rfl
  | succ n ih =>
    rw [Function.iterate_succ_apply']
    rw [ih]
    rfl
